import Mathlib

/-!
# Verification of the EmTec Targets ingestion pipeline

Shallow embedding of `scripts/ingest.js` (both revisions contained in the
repository file: the table-based revision and the free-text revision) and
proofs about the extraction / normalization pipeline.

Conventions of the embedding:
* JavaScript numbers are modelled as `ℚ` (every numeral the code parses is a
  finite decimal, and the conversions `* 25.4` and `/ 1000` are exact on `ℚ`).
* `null` / `undefined` / absent fields are modelled as `Option`.
* A thrown JavaScript exception is modelled as `Except.error ()`.
* Each JavaScript regular expression is compiled by hand to a scanning
  function; the original pattern is quoted in the doc comment.  JS `match`
  scans candidate start positions left to right; at one position the
  patterns used here are deterministic (greedy munch never needs to
  backtrack because every sub-pattern that follows a maximal-munch piece
  cannot start with a character the piece would have consumed), except for
  the three patterns of the free-text strategy, which are run on a small
  backtracking engine (`Re` / `mrun`) that mirrors JS leftmost-match
  backtracking semantics.
-/

/-! ## Character classes and basic scanning utilities -/

/-- JS `\s` (the whitespace characters that occur in this catalog data). -/
def isJsSpace (c : Char) : Bool :=
  c = ' ' ∨ c = '\t' ∨ c = '\n' ∨ c = '\r' ∨ c = '\x0b' ∨ c = '\x0c' ∨ c = '\u00A0'

/-- JS `\w` = `[A-Za-z0-9_]`. -/
def isWordChar (c : Char) : Bool :=
  ('a' ≤ c ∧ c ≤ 'z') ∨ ('A' ≤ c ∧ c ≤ 'Z') ∨ ('0' ≤ c ∧ c ≤ '9') ∨ c = '_'

def digitVal (c : Char) : Nat := c.toNat - '0'.toNat

/-- Consume a maximal run of decimal digits, accumulating value and count. -/
def readDigitsAux : List Char → Nat → Nat → (Nat × Nat × List Char)
  | c :: cs, acc, cnt =>
    if c.isDigit then readDigitsAux cs (10 * acc + digitVal c) (cnt + 1)
    else (acc, cnt, c :: cs)
  | [], acc, cnt => (acc, cnt, [])

/-- `\d+` (greedy): value, number of digits, rest.  Fails on zero digits. -/
def readDigits (cs : List Char) : Option (Nat × Nat × List Char) :=
  match cs with
  | c :: _ => if c.isDigit then some (readDigitsAux cs 0 0) else none
  | [] => none

/-- A scanned decimal numeral: integer part, fraction digits' value,
fraction digit count.  Its numeric value is `decVal`. -/
abbrev DecNum := Nat × Nat × Nat

/-- `parseFloat` value of a scanned numeral `iv.fv` (with `fc` fraction
digits): `iv + fv / 10^fc`, built with `mkRat` so that it evaluates inside
the kernel (see `decVal_eq`). -/
def decVal (iv fv fc : Nat) : ℚ := mkRat (iv * 10 ^ fc + fv) (10 ^ fc)

def numVal (t : DecNum) : ℚ := decVal t.1 t.2.1 t.2.2

/-- `numVal t * 25.4` (the inch conversion), in `mkRat` form. -/
def inchVal (t : DecNum) : ℚ :=
  mkRat ((t.1 * 10 ^ t.2.2 + t.2.1) * 254) (10 ^ (t.2.2 + 1))

/-- `numVal t / 1000` (the micron conversion), in `mkRat` form. -/
def umVal (t : DecNum) : ℚ :=
  mkRat (t.1 * 10 ^ t.2.2 + t.2.1) (10 ^ (t.2.2 + 3))

/-- Numeral shape `\d+(?:\.\d+)?` (a fraction part needs at least one digit
after the dot; a bare trailing dot is not consumed). -/
def readNumA (cs : List Char) : Option (DecNum × List Char) :=
  match readDigits cs with
  | none => none
  | some (iv, _, rest) =>
    match rest with
    | '.' :: r2 =>
      match readDigits r2 with
      | some (fv, fc, r3) => some ((iv, fv, fc), r3)
      | none => some ((iv, 0, 0), '.' :: r2)
    | _ => some ((iv, 0, 0), rest)

/-- Numeral shape `\d+\.?\d*` (a bare trailing dot IS consumed). -/
def readNumB (cs : List Char) : Option (DecNum × List Char) :=
  match readDigits cs with
  | none => none
  | some (iv, _, rest) =>
    match rest with
    | '.' :: r2 =>
      match readDigits r2 with
      | some (fv, fc, r3) => some ((iv, fv, fc), r3)
      | none => some ((iv, 0, 0), r2)
    | _ => some ((iv, 0, 0), rest)

/-- `\s*` (greedy). -/
def skipWs : List Char → List Char
  | c :: cs => if isJsSpace c then skipWs cs else c :: cs
  | [] => []

/-- JS `s.trim()` (remove leading and trailing whitespace). -/
def jsTrim (s : String) : String :=
  String.mk ((skipWs ((skipWs s.toList).reverse)).reverse)

/-- JS `s.substring(0, n)`. -/
def strTake (s : String) (n : Nat) : String := String.mk (s.toList.take n)

/-- Match a literal string case-insensitively at the head (give the pattern
in lowercase), returning the rest. -/
def dropStrCI : List Char → List Char → Option (List Char)
  | [], cs => some cs
  | p :: ps, c :: cs => if c.toLower = p then dropStrCI ps cs else none
  | _ :: _, [] => none

/-- Leftmost-match search: try the position matcher at every start position
from left to right (JS `String.prototype.match` scanning). -/
def firstMatch {α : Type} (p : List Char → Option α) : List Char → Option α
  | [] => p []
  | c :: cs =>
    match p (c :: cs) with
    | some a => some a
    | none => firstMatch p cs

/-- Does `pat` occur at the head of the list? -/
def matchesHead : List Char → List Char → Bool
  | [], _ => true
  | _ :: _, [] => false
  | p :: ps, c :: cs => p = c && matchesHead ps cs

def hasSubList (pat : List Char) : List Char → Bool
  | [] => matchesHead pat []
  | c :: cs => matchesHead pat (c :: cs) || hasSubList pat cs

/-- JS `s.includes(pat)`. -/
def containsSub (s pat : String) : Bool := hasSubList pat.toList s.toList

/-- JS `s.toLowerCase()` (ASCII suffices for the catalog markers tested). -/
def jsLower (s : String) : String := String.mk (s.toList.map Char.toLower)

/-- JS `s.trim().substring(0, n)`. -/
def trimTake (s : String) (n : Nat) : String := strTake (jsTrim s) n

/-! ## Field normalizers (`parseDiameter`, `parseThickness`, `parsePurity`,
`parsePrice` from `scripts/ingest.js`) -/

/-- `/(\d+(?:\.\d+)?)\s*mm/i` at one position: numeral, optional spaces,
literal `mm` (case-insensitive). -/
def numMMHere (cs : List Char) : Option ℚ :=
  match readNumA cs with
  | some (t, rest) =>
    match dropStrCI ['m', 'm'] (skipWs rest) with
    | some _ => some (numVal t)
    | none => none
  | none => none

def findNumMM (cs : List Char) : Option ℚ := firstMatch numMMHere cs

/-- `/(\d+(?:\.\d+)?)/` at one position (captured numeral only). -/
def numHere (cs : List Char) : Option DecNum := (readNumA cs).map (·.1)

def findNumA (cs : List Char) : Option DecNum := firstMatch numHere cs

/-- `parseDiameter` (first revision, lines 71–86).

```js
function parseDiameter(text) {
  if (!text) return null;
  const mmMatch = text.match(/(\d+(?:\.\d+)?)\s*mm/i);
  if (mmMatch) return parseFloat(mmMatch[1]);
  const inchMatch = text.match(/(\d+(?:\.\d+)?)\s*["″]?(?:\s*inch)?/i);
  if (inchMatch) return parseFloat(inchMatch[1]) * 25.4;
  const numMatch = text.match(/(\d+(?:\.\d+)?)/);
  if (numMatch) return parseFloat(numMatch[1]);
  return null;
}
```

In the inch pattern both the quote glyph and the word `inch` are optional
(`["″]?` and `(?:...)?`), so the pattern succeeds on any text containing a
numeral and captures exactly the first numeral: it is embedded as
`findNumA`.  Consequently the final bare-number branch is unreachable; it
is kept here as in the source. -/
def parseDiameter (text : String) : Option ℚ :=
  if text = "" then none
  else
    let cs := text.toList
    match findNumMM cs with
    | some v => some v
    | none =>
      match findNumA cs with
      | some t => some (inchVal t)
      | none =>
        match findNumA cs with
        | some t => some (numVal t)
        | none => none

/-- `/(\d+(?:\.\d+)?)\s*[μu]m/i` at one position.  Case-insensitivity of
`[μu]` admits `μ`, `Μ`, `u`, `U`. -/
def numUMHere (cs : List Char) : Option DecNum :=
  match readNumA cs with
  | some (t, rest) =>
    match skipWs rest with
    | c :: r2 =>
      if c = 'μ' ∨ c = 'Μ' ∨ c = 'u' ∨ c = 'U' then
        match r2 with
        | m :: _ => if m = 'm' ∨ m = 'M' then some t else none
        | [] => none
      else none
    | [] => none
  | none => none

/-- `parseThickness` (first revision, lines 91–105): millimeter pattern,
then micron pattern (divide by 1000), then bare numeral. -/
def parseThickness (text : String) : Option ℚ :=
  if text = "" then none
  else
    let cs := text.toList
    match findNumMM cs with
    | some v => some v
    | none =>
      match firstMatch numUMHere cs with
      | some t => some (umVal t)
      | none =>
        match findNumA cs with
        | some t => some (numVal t)
        | none => none

/-- Maximal digit run as characters. -/
def spanDigits : List Char → (List Char × List Char)
  | c :: cs =>
    if c.isDigit then
      let (a, b) := spanDigits cs
      (c :: a, b)
    else ([], c :: cs)
  | [] => ([], [])

/-- Maximal whitespace run as characters. -/
def spanWs : List Char → (List Char × List Char)
  | c :: cs =>
    if isJsSpace c then
      let (a, b) := spanWs cs
      (c :: a, b)
    else ([], c :: cs)
  | [] => ([], [])

/-- `/(\d+(?:\.\d+)?)\s*%/` at one position.  The source returns `match[0]`
(the whole matched text, including any spaces before `%`). -/
def percentHere (cs : List Char) : Option String :=
  match spanDigits cs with
  | ([], _) => none
  | (ds, rest) =>
    let (fracPart, rest2) :=
      match rest with
      | '.' :: r2 =>
        match spanDigits r2 with
        | ([], _) => (([] : List Char), '.' :: r2)
        | (fs, r3) => ('.' :: fs, r3)
      | _ => (([] : List Char), rest)
    let (ws, rest3) := spanWs rest2
    match rest3 with
    | '%' :: _ => some (String.mk (ds ++ fracPart ++ ws ++ ['%']))
    | _ => none

/-- `/(\d)N/i` at one position: a single digit immediately followed by `N`
or `n`. -/
def digitNHere : List Char → Option Nat
  | c :: n :: _ =>
    if c.isDigit ∧ (n = 'N' ∨ n = 'n') then some (digitVal c) else none
  | _ => none

/-- `parsePurity` (first revision, lines 110–124).

```js
function parsePurity(text) {
  if (!text) return null;
  const match = text.match(/(\d+(?:\.\d+)?)\s*%/);
  if (match) return match[0];
  const nMatch = text.match(/(\d)N/i);
  if (nMatch) {
    const nines = parseInt(nMatch[1]);
    return '99.' + '9'.repeat(nines - 2) + '%';
  }
  return null;
}
```

`'9'.repeat(nines - 2)` throws a `RangeError` when `nines < 2` (negative
repeat count); the thrown exception is modelled as `Except.error ()`. -/
def parsePurity (text : String) : Except Unit (Option String) :=
  if text = "" then .ok none
  else
    let cs := text.toList
    match firstMatch percentHere cs with
    | some m => .ok (some m)
    | none =>
      match firstMatch digitNHere cs with
      | some nines =>
        if nines < 2 then .error ()
        else .ok (some ("99." ++ String.mk (List.replicate (nines - 2) '9') ++ "%"))
      | none => .ok none

/-- JS `priceStr.replace(/[$,]/g, '')`. -/
def stripDollarComma (s : String) : String :=
  String.mk (s.toList.filter (fun c => c ≠ '$' ∧ c ≠ ','))

/-- `/(\d+\.?\d*)/` at one position (captured numeral's value only). -/
def numBHere (cs : List Char) : Option ℚ := (readNumB cs).map (fun p => numVal p.1)

def findNumB (cs : List Char) : Option ℚ := firstMatch numBHere cs

/-- `parsePrice` (second revision, lines 518–524).

```js
function parsePrice(priceStr) {
  if (!priceStr) return null;
  if (priceStr.includes('P.O.R.')) return null; // Price on Request
  const match = priceStr.replace(/[$,]/g, '').match(/(\d+\.?\d*)/);
  return match ? parseFloat(match[1]) : null;
}
```

`none` models a `null`/`undefined` argument; `!priceStr` is also true for
the empty string. -/
def parsePrice (priceStr : Option String) : Option ℚ :=
  match priceStr with
  | none => none
  | some s =>
    if s = "" then none
    else if containsSub s "P.O.R." then none
    else
      match findNumB (stripDollarComma s).toList with
      | some v => some v
      | none => none

/-- The behaviour claim C10 ascribes to `parsePrice`, written from the
claim's words: null for null input and for any string containing
`P.O.R.`; otherwise the first decimal numeral of the input stripped of
dollar signs and commas, or null when there is no numeral. -/
def parsePriceSpec (priceStr : Option String) : Option ℚ :=
  match priceStr with
  | none => none
  | some s =>
    if containsSub s "P.O.R." then none
    else findNumB (stripDollarComma s).toList

/-! ## `parseDescription` (second revision, lines 443–513) and its patterns -/

/-- `/^(.+?)\s*Target/i`: lazy group growth from the start of the string;
`.` does not match a line terminator; after the candidate group, greedy
`\s*` then the literal `Target` (case-insensitive).  Returns group 1. -/
def matchMaterialAux : List Char → List Char → Option String
  | acc, c :: cs =>
    if c = '\n' ∨ c = '\r' then none
    else
      let acc2 := acc ++ [c]
      match dropStrCI ['t', 'a', 'r', 'g', 'e', 't'] (skipWs cs) with
      | some _ => some (String.mk acc2)
      | none => matchMaterialAux acc2 cs
  | _, [] => none

/-- `/(\d+\.?\d*%)\s*(\w+)/` at one position; the source uses group 1 (the
numeral with the percent sign). -/
def purityPctHere (cs : List Char) : Option String :=
  match spanDigits cs with
  | ([], _) => none
  | (ds, rest) =>
    let (np, rest2) :=
      match rest with
      | '.' :: r2 =>
        let (fs, r3) := spanDigits r2
        (ds ++ ['.'] ++ fs, r3)
      | _ => (ds, rest)
    match rest2 with
    | '%' :: r3 =>
      match skipWs r3 with
      | c :: _ => if isWordChar c then some (String.mk (np ++ ['%'])) else none
      | [] => none
    | _ => none

/-- `/(\d+)[:/](\d+)\s*ratio/i` at one position; the source stores
`` `${m[1]}/${m[2]}` ``. -/
def alloyHere (cs : List Char) : Option String :=
  match spanDigits cs with
  | ([], _) => none
  | (d1, rest) =>
    match rest with
    | c :: r2 =>
      if c = ':' ∨ c = '/' then
        match spanDigits r2 with
        | ([], _) => none
        | (d2, r3) =>
          match dropStrCI ['r', 'a', 't', 'i', 'o'] (skipWs r3) with
          | some _ => some (String.mk (d1 ++ ['/'] ++ d2))
          | none => none
      else none
    | [] => none

/-- `/[ØO](\d+(?:\.\d+)?)\s*(?:mm)?/i` at one position (case-insensitivity
of `[ØO]` admits `Ø ø O o`; the optional trailing `mm` cannot fail). -/
def diamHere (cs : List Char) : Option ℚ :=
  match cs with
  | c :: r =>
    if c = 'Ø' ∨ c = 'ø' ∨ c = 'O' ∨ c = 'o' then (readNumA r).map (fun p => numVal p.1)
    else none
  | [] => none

/-- `/x\s*(\d+\.?\d*)\s*mm/i` at one position. -/
def xThickHere (cs : List Char) : Option ℚ :=
  match cs with
  | c :: r =>
    if c = 'x' ∨ c = 'X' then
      match readNumB (skipWs r) with
      | some (t, rest) =>
        match dropStrCI ['m', 'm'] (skipWs rest) with
        | some _ => some (numVal t)
        | none => none
      | none => none
    else none
  | [] => none

/-- `O\.?D` / `I\.?D` tail (case-insensitive): the marker letter, an
optional dot, then `D`. -/
def markerDTail (letter : Char) (cs : List Char) : Bool :=
  match cs with
  | c :: r =>
    if c.toLower = letter then
      match r with
      | '.' :: d :: _ => d = 'D' ∨ d = 'd'
      | d :: _ => d = 'D' ∨ d = 'd'
      | [] => false
    else false
  | [] => false

/-- `/(\d+\.?\d*)\s*mm\s*O\.?D/i` at one position (`letter := 'o'`), and
the same with `I` (`letter := 'i'`). -/
def odidHere (letter : Char) (cs : List Char) : Option ℚ :=
  match readNumB cs with
  | some (t, rest) =>
    match dropStrCI ['m', 'm'] (skipWs rest) with
    | some r2 => if markerDTail letter (skipWs r2) then some (numVal t) else none
    | none => none
  | none => none

structure ParsedDesc where
  material : Option String
  purity : Option String
  diameter_mm : Option ℚ
  thickness_mm : Option ℚ
  outer_diameter_mm : Option ℚ
  inner_diameter_mm : Option ℚ
  target_type : String
  alloy_ratio : Option String
  backing_plate : Option String
  notes : Option String
deriving DecidableEq, Repr

/-- The initial `result` object of `parseDescription`. -/
def emptyDesc : ParsedDesc :=
  ⟨none, none, none, none, none, none, "disc", none, none, none⟩

/-- `parseDescription` (second revision, lines 443–513): material before
the literal `Target`; purity percentage; alloy ratio; `Ø`-marked diameter;
`x`-marked thickness; OD/ID pair detection, which reclassifies the record
as annular, stores the pair and clears `diameter_mm`; backing-plate and
notes flags. -/
def parseDescription (desc : String) : ParsedDesc :=
  if desc = "" then emptyDesc
  else
    let cs := desc.toList
    let material := (matchMaterialAux [] cs).map jsTrim
    let purity := firstMatch purityPctHere cs
    let alloy := firstMatch alloyHere cs
    let diameter := firstMatch diamHere cs
    let thickness := firstMatch xThickHere cs
    let odm := firstMatch (odidHere 'o') cs
    let idm := firstMatch (odidHere 'i') cs
    let sh :=
      match odm, idm with
      | some o, some i => ("annular", some o, some i, (none : Option ℚ))
      | _, _ => ("disc", (none : Option ℚ), (none : Option ℚ), diameter)
    let backing :=
      if containsSub (jsLower desc) "backing plate" || containsSub (jsLower desc) "copper backing"
      then some "Copper" else none
    let notes1 : Option String :=
      if containsSub desc "NEW" then some "New product" else none
    let notes2 : Option String :=
      if containsSub desc "ITO" || containsSub desc "Indium Tin Oxide" then
        some ((match notes1 with | some n => n ++ "; " | none => "") ++
          "Indium Tin Oxide compound")
      else notes1
    ⟨material, purity, sh.2.2.2, thickness, sh.2.1, sh.2.2.1, sh.1, alloy, backing, notes2⟩

/-! ## The candidate record and the first revision's strategies -/

/-- A candidate/normalized record as built by either revision of the
script (absent JS object fields are `none`). -/
structure Target where
  part_number : String
  target_type : String
  material : Option String
  purity : Option String
  diameter_mm : Option ℚ
  outer_diameter_mm : Option ℚ
  inner_diameter_mm : Option ℚ
  thickness_mm : Option ℚ
  price_usd : Option ℚ
  alloy_ratio : Option String
  backing_plate : Option String
  notes : Option String
  raw_excerpt : Option String
deriving DecidableEq, Repr

/-- `$(cells[i]).text()`: the cheerio text of cell `i`, `""` when the index
is out of range (`$(undefined).text() === ''`). -/
def cellText (cells : List String) (i : Nat) : String := cells.getD i ""

/-- One row of `parseDiscTargets` (first revision, lines 132–155).  A row
is `(isHeader, cells)`: whether the row contains a `th`, and its `td`
texts.  `raw_excerpt` models `$(row).text()` as the concatenation of the
cell texts.  `parsePurity` runs before the part-number/material guard, so
a throwing purity cell aborts the whole parse. -/
def parseDiscRow (diameterMm : ℚ) (isHeader : Bool) (cells : List String) :
    Except Unit (Option Target) := do
  if isHeader then return none
  if cells.length < 3 then return none
  let partNumber := jsTrim (cellText cells 0)
  let material := jsTrim (cellText cells 1)
  let purity ← parsePurity (cellText cells 2)
  let thickness := parseThickness (cellText cells 3)
  if partNumber = "" ∨ material = "" then return none
  return some
    { part_number := partNumber, target_type := "disc",
      material := some material, purity := purity,
      diameter_mm := some diameterMm, outer_diameter_mm := none,
      inner_diameter_mm := none, thickness_mm := thickness,
      price_usd := none, alloy_ratio := none, backing_plate := none,
      notes := none, raw_excerpt := some (trimTake (String.join cells) 500) }

/-- `parseDiscTargets` over the rows of one table. -/
def parseDiscTargets (diameterMm : ℚ) (rows : List (Bool × List String)) :
    Except Unit (List Target) :=
  rows.filterMapM (fun r => parseDiscRow diameterMm r.1 r.2)

/-- One row of `parseAnnularTargets` (first revision, lines 163–192):
requires at least 4 cells; OD and ID come from `parseDiameter` on cells 2
and 3 (and may therefore be `null`); no purity is parsed. -/
def parseAnnularRow (isHeader : Bool) (cells : List String) : Option Target :=
  if isHeader then none
  else if cells.length < 4 then none
  else
    let partNumber := jsTrim (cellText cells 0)
    let material := jsTrim (cellText cells 1)
    let od := parseDiameter (cellText cells 2)
    let idm := parseDiameter (cellText cells 3)
    let thickness := parseThickness (cellText cells 4)
    if partNumber = "" ∨ material = "" then none
    else some
      { part_number := partNumber, target_type := "annular",
        material := some material, purity := none,
        diameter_mm := none, outer_diameter_mm := od,
        inner_diameter_mm := idm, thickness_mm := thickness,
        price_usd := none, alloy_ratio := none, backing_plate := none,
        notes := none, raw_excerpt := some (trimTake (String.join cells) 500) }

def parseAnnularTargets (rows : List (Bool × List String)) : List Target :=
  rows.filterMap (fun r => parseAnnularRow r.1 r.2)

/-- One `<table>` of the first revision's page, as the script reads it:
the text of the nearest preceding `h2/h3/h4/strong` heading, the table's
flattened text, and its rows. -/
structure TableData where
  prevHeading : String
  tableText : String
  rows : List (Bool × List String)
deriving Repr

/-- The per-table body of the first revision's `$('table').each` loop
(lines 207–227): disc targets when the preceding heading matches
`/(\d+(?:\.\d+)?)\s*mm/i`, and annular targets when the lowercased table
text contains `annular`, or contains both `od` and `id`. -/
def parseTableV1 (t : TableData) : Except Unit (List Target) := do
  let disc ←
    match findNumMM t.prevHeading.toList with
    | some d => parseDiscTargets d t.rows
    | none => pure []
  let tl := jsLower t.tableText
  let ann :=
    if containsSub tl "annular" || (containsSub tl "od" && containsSub tl "id")
    then parseAnnularTargets t.rows
    else []
  pure (disc ++ ann)

/-- Five digits at this position with a trailing word boundary. -/
def fiveDigitsAt : List Char → Option (List Char)
  | a :: b :: c :: d :: e :: rest =>
    if a.isDigit && b.isDigit && c.isDigit && d.isDigit && e.isDigit then
      match rest with
      | f :: _ => if isWordChar f then none else some [a, b, c, d, e]
      | [] => some [a, b, c, d, e]
    else none
  | _ => none

/-- `/\b(\d{5})\b/`: first position with a word boundary, exactly five
digits, and a word boundary after.  `prev` is the character before the
current position (`none` at the start of the string). -/
def find5DigitAux : Option Char → List Char → Option String
  | prev, c :: cs =>
    let okHere :=
      match prev with
      | some p => !isWordChar p
      | none => true
    match (if okHere then fiveDigitsAt (c :: cs) else none) with
    | some ds => some (String.mk ds)
    | none => find5DigitAux (some c) cs
  | _, [] => none

/-- One row-like element of the first revision's fallback strategy
(lines 234–246): a bare five-digit numeral becomes a part number with
material `"Unknown"` and no other fields. -/
def fallbackRow (text : String) : Option Target :=
  match find5DigitAux none text.toList with
  | some pn => some
      { part_number := pn, target_type := "disc",
        material := some "Unknown", purity := none,
        diameter_mm := none, outer_diameter_mm := none,
        inner_diameter_mm := none, thickness_mm := none,
        price_usd := none, alloy_ratio := none, backing_plate := none,
        notes := none, raw_excerpt := some (trimTake text 500) }
  | none => none

/-- All candidates produced by the `$('table').each` loop (the structured
strategies), in emission order. -/
def tableCandidates (tables : List TableData) : Except Unit (List Target) :=
  tables.foldlM (fun acc t => do pure (acc ++ (← parseTableV1 t))) []

/-- `parseTargetsFromHTML` of the first revision (lines 197–250): run the
table strategies over every table; only when they produced zero candidates
(`allTargets.length === 0`), run the fallback over the row-like elements. -/
def parseTargetsFromHTMLv1 (tables : List TableData)
    (fallbackRowTexts : List String) : Except Unit (List Target) := do
  let fromTables ← tableCandidates tables
  if fromTables.length = 0 then
    pure (fallbackRowTexts.filterMap fallbackRow)
  else
    pure fromTables

/-! ## A small backtracking regex engine for the free-text strategy

The three patterns of the second revision's `parseTargetsFromHTML` use lazy
quantifiers and alternation, so they are run on a backtracking engine that
mirrors ECMAScript matching: alternatives are tried left to right, greedy
quantifiers try the longer iteration first, lazy ones the exit first, and an
iteration of a quantifier that consumes nothing is abandoned.  `fuel` bounds
the recursion; it is chosen large enough for every concrete run below. -/

inductive Re where
  | eps : Re
  | pred : (Char → Bool) → Re
  | seq : Re → Re → Re
  | alt : Re → Re → Re
  | star : Bool → Re → Re
  | group : Nat → Re → Re
  | wordB : Re

/-- Captured groups: (index, start, stop), most recent first. -/
abbrev Caps := List (Nat × Nat × Nat)

/-- Backtracking matcher in continuation-passing style.  State: current
position, remaining characters, whether the previous character is a word
character (for `\b`), captures so far. -/
def mrun {α : Type} : Nat → Re → Nat → List Char → Bool → Caps →
    (Nat → List Char → Bool → Caps → Option α) → Option α
  | 0, _, _, _, _, _, _ => none
  | fuel + 1, re, pos, rest, pw, caps, k =>
    match re with
    | .eps => k pos rest pw caps
    | .pred p =>
      match rest with
      | [] => none
      | c :: rs => if p c then k (pos + 1) rs (isWordChar c) caps else none
    | .seq a b =>
      mrun fuel a pos rest pw caps (fun p2 r2 w2 c2 => mrun fuel b p2 r2 w2 c2 k)
    | .alt a b =>
      match mrun fuel a pos rest pw caps k with
      | some x => some x
      | none => mrun fuel b pos rest pw caps k
    | .star greedy r =>
      let once := fun (kk : Nat → List Char → Bool → Caps → Option α) =>
        mrun fuel r pos rest pw caps
          (fun p2 r2 w2 c2 =>
            if p2 = pos then none else mrun fuel (.star greedy r) p2 r2 w2 c2 kk)
      if greedy then
        match once k with
        | some x => some x
        | none => k pos rest pw caps
      else
        match k pos rest pw caps with
        | some x => some x
        | none => once k
    | .group n r =>
      mrun fuel r pos rest pw caps (fun p2 r2 w2 c2 => k p2 r2 w2 ((n, pos, p2) :: c2))
    | .wordB =>
      let cw := match rest with | [] => false | c :: _ => isWordChar c
      if pw != cw then k pos rest pw caps else none

structure MatchRes where
  mstart : Nat
  mend : Nat
  rest : List Char
  pwEnd : Bool
  caps : Caps
deriving DecidableEq

/-- Leftmost match: try every start position from left to right (the JS
regex scan loop). -/
def scanFrom (fuel : Nat) (re : Re) : Nat → List Char → Bool → Option MatchRes
  | pos, rest, pw =>
    match mrun fuel re pos rest pw [] (fun p2 r2 w2 c2 => some ⟨pos, p2, r2, w2, c2⟩) with
    | some m => some m
    | none =>
      match rest with
      | [] => none
      | c :: cs => scanFrom fuel re (pos + 1) cs (isWordChar c)

/-- Extract the text of capture group `n` (most recent occurrence wins, as
in JS). -/
def getGroup (s : List Char) (caps : Caps) (n : Nat) : Option String :=
  (List.find? (fun t => t.1 = n) caps).map
    (fun t => String.mk ((s.drop t.2.1).take (t.2.2 - t.2.1)))

def Re.lit (c : Char) : Re := .pred (fun x => x = c)

def Re.litCI (c : Char) : Re := .pred (fun x => x.toLower = c.toLower)

def Re.cat (rs : List Re) : Re := rs.foldr Re.seq Re.eps

/-- Case-sensitive literal. -/
def Re.str (s : String) : Re := Re.cat (s.toList.map Re.lit)

/-- Case-insensitive literal (for patterns with the `i` flag). -/
def Re.strCI (s : String) : Re := Re.cat (s.toList.map Re.litCI)

def Re.opt (greedy : Bool) (r : Re) : Re :=
  if greedy then .alt r .eps else .alt .eps r

def Re.plus (greedy : Bool) (r : Re) : Re := .seq r (.star greedy r)

def Re.digit : Re := .pred Char.isDigit

def Re.ws : Re := .pred isJsSpace

def Re.wordc : Re := .pred isWordChar

/-- `.` (anything but a line terminator). -/
def Re.dot : Re :=
  .pred (fun c => c ≠ '\n' ∧ c ≠ '\r' ∧ c ≠ '\u2028' ∧ c ≠ '\u2029')

/-! ## The second revision's `parseTargetsFromHTML` (lines 529–607) -/

/-- The free-text product pattern (line 544):

`/\b(\d{4,5}(?:-\w)?)\s+(?:NEW\s+)?(.+?Target.*?(?:Ø\d+.*?mm|O\.D\..*?I\.D\.).*?)\s+each\s+\$?([\d,]+\.?\d*|P\.O\.R\.)/gi`

(case-insensitive; `[ØO]`-style classes are expanded to both cases). -/
def productPattern : Re :=
  Re.cat
    [ .wordB,
      .group 1 (Re.cat
        [ Re.digit, Re.digit, Re.digit, Re.digit, Re.opt true Re.digit,
          Re.opt true (Re.seq (Re.lit '-') Re.wordc) ]),
      Re.plus true Re.ws,
      Re.opt true (Re.seq (Re.strCI "NEW") (Re.plus true Re.ws)),
      .group 2 (Re.cat
        [ Re.plus false Re.dot,
          Re.strCI "Target",
          .star false Re.dot,
          .alt
            (Re.cat [ .pred (fun c => c = 'Ø' ∨ c = 'ø'),
                      Re.plus true Re.digit, .star false Re.dot, Re.strCI "mm" ])
            (Re.cat [ Re.strCI "O.D.", .star false Re.dot, Re.strCI "I.D." ]),
          .star false Re.dot ]),
      Re.plus true Re.ws,
      Re.strCI "each",
      Re.plus true Re.ws,
      Re.opt true (Re.lit '$'),
      .group 3 (Re.alt
        (Re.cat [ Re.plus true (.pred (fun c => c.isDigit ∨ c = ',')),
                  Re.opt true (Re.lit '.'), .star true Re.digit ])
        (Re.strCI "P.O.R.")) ]

/-- The DOM-pass description pattern (line 578):
`/(\w+(?:\/\w+)?\s+Target[^$]+?)(?:each|\$|P\.O\.R)/i`. -/
def descPattern : Re :=
  Re.cat
    [ .group 1 (Re.cat
        [ Re.plus true Re.wordc,
          Re.opt true (Re.seq (Re.lit '/') (Re.plus true Re.wordc)),
          Re.plus true Re.ws,
          Re.strCI "Target",
          Re.plus false (.pred (fun c => c ≠ '$')) ]),
      .alt (Re.strCI "each") (.alt (Re.lit '$') (Re.strCI "P.O.R")) ]

/-- The DOM-pass price pattern (line 585):
`/\$\s*([\d,]+\.?\d*)|P\.O\.R\./` (case-sensitive). -/
def pricePattern : Re :=
  .alt
    (Re.cat [ Re.lit '$', .star true Re.ws,
              .group 1 (Re.cat
                [ Re.plus true (.pred (fun c => c.isDigit ∨ c = ',')),
                  Re.opt true (Re.lit '.'), .star true Re.digit ]) ])
    (Re.str "P.O.R.")

def engineFuel : Nat := 2000

/-- First match from the start of a string, returning capture group 1. -/
def execGroup1 (re : Re) (s : String) : Option String :=
  match scanFrom engineFuel re 0 s.toList false with
  | some m => getGroup s.toList m.caps 1
  | none => none

/-- First match from the start of a string, returning the whole matched
text (JS `match[0]`). -/
def execMatch0 (re : Re) (s : String) : Option String :=
  match scanFrom engineFuel re 0 s.toList false with
  | some m => some (String.mk ((s.toList.drop m.mstart).take (m.mend - m.mstart)))
  | none => none

/-- Assemble a record of the second revision's candidate shape
(`{ part_number, ...parsed, price_usd, raw_excerpt }`). -/
def mkV2Target (partNumber : String) (parsed : ParsedDesc) (price : Option ℚ)
    (description : String) : Target :=
  { part_number := partNumber, target_type := parsed.target_type,
    material := parsed.material, purity := parsed.purity,
    diameter_mm := parsed.diameter_mm,
    outer_diameter_mm := parsed.outer_diameter_mm,
    inner_diameter_mm := parsed.inner_diameter_mm,
    thickness_mm := parsed.thickness_mm, price_usd := price,
    alloy_ratio := parsed.alloy_ratio, backing_plate := parsed.backing_plate,
    notes := parsed.notes, raw_excerpt := some (strTake description 500) }

/-- The `while ((match = productPattern.exec(pageText)) !== null)` loop of
lines 547–562: candidates in match order; a match whose description has no
truthy material is dropped.  `fuelLoop` bounds the number of matches (the
string length suffices: every match consumes at least one character). -/
def parseFreeTextLoop (s : List Char) : Nat → Nat → List Char → Bool → List Target
  | 0, _, _, _ => []
  | fl + 1, pos, rest, pw =>
    match scanFrom engineFuel productPattern pos rest pw with
    | none => []
    | some m =>
      let partNumber := (getGroup s m.caps 1).getD ""
      let description := jsTrim ((getGroup s m.caps 2).getD "")
      let price := (getGroup s m.caps 3).getD ""
      let parsed := parseDescription description
      let recs :=
        match parsed.material with
        | some mt =>
          if mt ≠ "" then [mkV2Target partNumber parsed (parsePrice (some price)) description]
          else []
        | none => []
      recs ++ parseFreeTextLoop s fl m.mend m.rest m.pwEnd

/-- The free-text regex strategy of the second revision over the page's
flattened body text. -/
def parseFreeTextCandidates (pageText : String) : List Target :=
  parseFreeTextLoop pageText.toList (pageText.length + 1) 0 pageText.toList false

/-- `/^\s*(\d{4,5}(?:-\w)?)\s+/` (line 569), hand-compiled: leading
whitespace, a digit run of exactly 4 or 5, an optional `-`+word character,
then at least one whitespace character. -/
def prodNumHere (cs : List Char) : Option String :=
  let cs2 := skipWs cs
  match spanDigits cs2 with
  | ([], _) => none
  | (ds, rest) =>
    if ds.length = 4 ∨ ds.length = 5 then
      match rest with
      | '-' :: w :: c :: _ =>
        if isWordChar w ∧ isJsSpace c then some (String.mk (ds ++ ['-', w])) else none
      | c :: _ => if c ≠ '-' ∧ isJsSpace c then some (String.mk ds) else none
      | [] => none
    else none

/-- The body of the second revision's DOM pass (lines 565–596) for one
row-like element, given the candidates accumulated so far (`allTargets`):
skip when the part number was already found; parse the description part;
price is `priceMatch[0]` or `null`. -/
def domRowCandidate (acc : List Target) (text : String) : Option Target :=
  match prodNumHere text.toList with
  | none => none
  | some partNumber =>
    if acc.any (fun t => t.part_number = partNumber) then none
    else
      match execGroup1 descPattern text with
      | none => none
      | some descRaw =>
        let description := jsTrim descRaw
        let parsed := parseDescription description
        let price := execMatch0 pricePattern text
        match parsed.material with
        | some mt =>
          if mt ≠ "" then some (mkV2Target partNumber parsed (parsePrice price) description)
          else none
        | none => none

/-- The dedup of lines 598–604: keep the first record for each part
number (`seen` set + `filter`). -/
def dedupAux : List String → List Target → List Target
  | _, [] => []
  | seen, t :: ts =>
    if seen.contains t.part_number then dedupAux seen ts
    else t :: dedupAux (t.part_number :: seen) ts

def dedupByPartNumber (ts : List Target) : List Target := dedupAux [] ts

/-- `parseTargetsFromHTML` of the second revision (lines 529–607): the
free-text regex strategy over the flattened page text, then the DOM pass
(which skips part numbers already found), then dedup by part number. -/
def parseTargetsFromHTMLv2 (pageText : String) (domRowTexts : List String) :
    List Target :=
  let fromRegex := parseFreeTextCandidates pageText
  let all := domRowTexts.foldl
    (fun acc text =>
      match domRowCandidate acc text with
      | some t => acc ++ [t]
      | none => acc)
    fromRegex
  dedupByPartNumber all

/-- JS `x || null` on a numeric field, as used for every measurement in the
`upsertTarget` values array (e.g. `target.thickness_mm || null`, line 662):
`0` (and `NaN`, which cannot arise from these digit-built values) is falsy
and is stored as `null`. -/
def jsFalsyToNull (v : Option ℚ) : Option ℚ :=
  match v with
  | some x => if x = 0 then none else some x
  | none => none

/-- Decidable equality for modelled thrown-exception results. -/
instance {ε α : Type} [DecidableEq ε] [DecidableEq α] : DecidableEq (Except ε α) := fun x y =>
  match x, y with
  | .ok a, .ok b =>
    if h : a = b then .isTrue (by subst h; rfl)
    else .isFalse (fun hh => h (Except.ok.inj hh))
  | .error a, .error b =>
    if h : a = b then .isTrue (by subst h; rfl)
    else .isFalse (fun hh => h (Except.error.inj hh))
  | .ok _, .error _ => .isFalse (fun hh => Except.noConfusion hh)
  | .error _, .ok _ => .isFalse (fun hh => Except.noConfusion hh)

/-! ## Concrete inputs used by the theorems below -/

/-- The free text of end-to-end scenario 2. -/
def scenario2Text : String :=
  "93000 Gold Target, 99.99% Au (60mm O.D. / 20mm I.D.) each $1,200.00"

/-- A page text with two free-text entries sharing one part number. -/
def duplicateKeyText : String :=
  "91000 Gold Target Ø10mm each $5.00 91000 Silver Target Ø20mm each $6.00"

/-- A description with both an OD and an ID marker. -/
def goldAnnularDesc : String := "Gold Target, 99.99% Au (60mm O.D. / 20mm I.D.)"

/-- Sample candidates sharing one part number (same strategy, emitted in
this order). -/
def sampleGold : Target :=
  ⟨"91000", "disc", some "Gold", none, some 10, none, none, none, some 5, none, none, none, none⟩

def sampleSilver : Target :=
  ⟨"91000", "disc", some "Silver", none, some 20, none, none, none, some 6, none, none, none, none⟩

/-- A row text for the second revision's DOM pass. -/
def platRowText : String :=
  "  91500 Platinum Target, 99.99% Pt (Ø57mm x 0.1mm) each $985.00"

/-- The candidate the DOM pass builds from `platRowText` (against an empty
accumulator). -/
def platTarget : Target :=
  ⟨"91500", "disc", some "Platinum", some "99.99%", some 57, none, none,
    some (mkRat 1 10), some 985, none, none, none,
    some "Platinum Target, 99.99% Pt (Ø57mm x 0.1mm)"⟩

/-- A 62mm-headed disc table with one header row and one data row. -/
def discTable : TableData :=
  ⟨"62mm Targets", "some table text",
    [(true, ["Prod", "Mat"]), (false, ["91700", "Gold", "99.99%", "0.1mm"])]⟩

/-- The candidate `parseDiscTargets` builds from `discTable`. -/
def discTableTarget : Target :=
  ⟨"91700", "disc", some "Gold", some "99.99%", some 62, none, none,
    some (mkRat 1 10), none, none, none, none, some "91700Gold99.99%0.1mm"⟩

/-- The candidate the fallback strategy builds from the row text
`"row 91234"`. -/
def fallbackTestTarget : Target :=
  ⟨"91234", "disc", some "Unknown", none, none, none, none, none, none,
    none, none, none, some "row 91234"⟩

/-! ## Lemmas about the numeral values -/

/-- `decVal` is the `parseFloat` value `iv + fv / 10^fc`. -/
theorem decVal_eq (iv fv fc : Nat) :
    decVal iv fv fc = (iv : ℚ) + (fv : ℚ) / (10 : ℚ) ^ fc := by
  unfold decVal
  rw [Rat.mkRat_eq_div]
  have h : ((10 : ℚ)) ^ fc ≠ 0 := by positivity
  push_cast
  field_simp

/-- `inchVal` is the inch conversion `numVal t * 25.4`. -/
theorem inchVal_eq (t : DecNum) : inchVal t = numVal t * (254 / 10 : ℚ) := by
  obtain ⟨iv, fv, fc⟩ := t
  unfold inchVal numVal decVal
  rw [Rat.mkRat_eq_div, Rat.mkRat_eq_div]
  have h10 : ((10 : ℚ)) ^ fc ≠ 0 := by positivity
  push_cast
  rw [pow_succ]
  field_simp

/-- `umVal` is the micron conversion `numVal t / 1000`. -/
theorem umVal_eq (t : DecNum) : umVal t = numVal t / 1000 := by
  obtain ⟨iv, fv, fc⟩ := t
  unfold umVal numVal decVal
  rw [Rat.mkRat_eq_div, Rat.mkRat_eq_div]
  have h10 : ((10 : ℚ)) ^ fc ≠ 0 := by positivity
  push_cast
  rw [pow_add]
  field_simp
  left
  norm_num

theorem decVal_nonneg (iv fv fc : Nat) : 0 ≤ decVal iv fv fc := by
  rw [decVal_eq]; positivity

theorem numVal_nonneg (t : DecNum) : 0 ≤ numVal t := decVal_nonneg t.1 t.2.1 t.2.2

theorem umVal_nonneg (t : DecNum) : 0 ≤ umVal t := by
  rw [umVal_eq]
  have := numVal_nonneg t
  positivity

/-- Transfer a property of a position matcher's results along the
left-to-right scan. -/
theorem firstMatch_sound {α : Type} (p : List Char → Option α) (P : α → Prop)
    (hp : ∀ l a, p l = some a → P a) :
    ∀ l a, firstMatch p l = some a → P a := by
  intro l
  induction l with
  | nil => exact fun a h => hp _ _ h
  | cons c cs ih =>
    intro a h
    rw [firstMatch] at h
    revert h
    cases hpc : p (c :: cs) with
    | some b => intro h; cases h; exact hp _ _ hpc
    | none => intro h; exact ih _ h

/-! ## Claim theorems -/

/-- Claim C2 (code bug): the claim says every field normalizer is total and
that a purity shorthand `"<digit>N"` with digit < 2 yields `null`; but
`parsePurity "1N"` reaches `'9'.repeat(1 - 2)`, which throws a
`RangeError` (modelled as `Except.error ()`). -/
theorem parsePurity_throws_on_1N : parsePurity "1N" = .error () := by decide

/-- Claim C3: unit conversion correctness — `"2\""` diameter is 50.8 mm
(exactly 254/5, hence within ±0.01), `"150 μm"` thickness is 0.15 mm,
purity `"4N"` is `"99.99%"` and `"5N"` is `"99.999%"`. -/
theorem unit_conversion_correctness :
    parseDiameter "2\"" = some (254 / 5 : ℚ) ∧
    parseThickness "150 μm" = some (3 / 20 : ℚ) ∧
    parsePurity "4N" = .ok (some "99.99%") ∧
    parsePurity "5N" = .ok (some "99.999%") := by
  refine ⟨?_, ?_, by decide, by decide⟩
  · have h : parseDiameter "2\"" = some (mkRat 508 10) := by decide
    rw [h, Rat.mkRat_eq_div]
    norm_num
  · have h : parseThickness "150 μm" = some (mkRat 150 1000) := by decide
    rw [h, Rat.mkRat_eq_div]
    norm_num

/-- Claim C6 (code bug): the claim says a text with a numeral but no
millimeter suffix and no inch marker is returned unconverted; but the inch
pattern `/(\d+(?:\.\d+)?)\s*["″]?(?:\s*inch)?/i` makes both markers
optional, so the bare numeral `"62"` is multiplied by 25.4 and yields
1574.8 (= 7874/5), not 62 — the source's dedicated bare-number branch is
unreachable. -/
theorem parseDiameter_converts_bare_numeral :
    parseDiameter "62" = some (7874 / 5 : ℚ) ∧ parseDiameter "62" ≠ some 62 := by
  constructor
  · have h : parseDiameter "62" = some (mkRat 15748 10) := by decide
    rw [h, Rat.mkRat_eq_div]
    norm_num
  · decide

set_option maxRecDepth 40000 in
/-- Claim C7: the free-text regex strategy on end-to-end scenario 2's text
produces exactly one record, with part number `"93000"`, shape annular,
outer diameter 60 mm, inner diameter 20 mm, no single diameter, and price
1200. -/
theorem free_text_scenario2 :
    parseFreeTextCandidates scenario2Text =
      [{ part_number := "93000", target_type := "annular",
         material := some "Gold", purity := some "99.99%",
         diameter_mm := none, outer_diameter_mm := some 60,
         inner_diameter_mm := some 20, thickness_mm := none,
         price_usd := some 1200, alloy_ratio := none,
         backing_plate := none, notes := none,
         raw_excerpt := some "Gold Target, 99.99% Au (60mm O.D. / 20mm I.D.)" }] := by
  decide

/-! ## Soundness of the position matchers used by thickness parsing -/

theorem numMMHere_nonneg : ∀ l v, numMMHere l = some v → 0 ≤ v := by
  intro l v h
  unfold numMMHere at h
  split at h
  · split at h
    · cases h; exact numVal_nonneg _
    · simp at h
  · simp at h

theorem xThickHere_nonneg : ∀ l v, xThickHere l = some v → 0 ≤ v := by
  intro l v h
  unfold xThickHere at h
  split at h
  · split at h
    · split at h
      · split at h
        · cases h; exact numVal_nonneg _
        · simp at h
      · simp at h
    · simp at h
  · simp at h

/-- Every value `parseThickness` returns is built from scanned digits, so
it is nonnegative. -/
theorem parseThickness_nonneg : ∀ text v, parseThickness text = some v → 0 ≤ v := by
  intro text v h
  unfold parseThickness at h
  split at h
  · simp at h
  · dsimp only at h
    split at h
    · cases h
      exact firstMatch_sound _ (fun v => 0 ≤ v) numMMHere_nonneg _ _ (by assumption)
    · split at h
      · cases h; exact umVal_nonneg _
      · split at h
        · cases h; exact numVal_nonneg _
        · simp at h

/-- The thickness extracted by `parseDescription` (the `x <n> mm` marker)
is likewise nonnegative. -/
theorem parseDescription_thickness_nonneg :
    ∀ desc v, (parseDescription desc).thickness_mm = some v → 0 ≤ v := by
  intro desc v h
  unfold parseDescription at h
  split at h
  · simp [emptyDesc] at h
  · dsimp only at h
    revert h
    cases hod : firstMatch (odidHere 'o') desc.toList <;>
      cases hid : firstMatch (odidHere 'i') desc.toList <;>
        exact fun h => firstMatch_sound _ (fun v => 0 ≤ v) xThickHere_nonneg _ _ h

/-- `x || null` turns a nonnegative field into a strictly positive one
whenever it stays present. -/
theorem jsFalsyToNull_pos {v : Option ℚ} (hnn : ∀ x, v = some x → 0 ≤ x) :
    ∀ q, jsFalsyToNull v = some q → 0 < q := by
  intro q h
  unfold jsFalsyToNull at h
  split at h
  · split at h
    · simp at h
    · cases h
      rename_i x hx
      exact lt_of_le_of_ne (hnn _ rfl) (Ne.symm hx)
  · simp at h

/-- Claim C9: in every record as written by `upsertTarget` (whose values
array coerces each measurement with `|| null`), the thickness, when
present, is strictly positive — `parseThickness` and the description
thickness marker only produce nonnegative values, and `0` is coerced to
`null` by the falsy check. -/
theorem thickness_positive_when_stored :
    (∀ text q, jsFalsyToNull (parseThickness text) = some q → 0 < q) ∧
    (∀ desc q, jsFalsyToNull ((parseDescription desc).thickness_mm) = some q → 0 < q) := by
  constructor
  · intro text q h
    exact jsFalsyToNull_pos (fun x hx => parseThickness_nonneg text x hx) q h
  · intro desc q h
    exact jsFalsyToNull_pos (fun x hx => parseDescription_thickness_nonneg desc x hx) q h

/-- Claim C9 witness: at the concrete inputs `"0.1mm"` and
`"Gold Target (Ø57mm x 0.2mm)"`. -/
theorem thickness_positive_when_stored_witness :
    ((0 : ℚ) < mkRat 1 10) ∧ ((0 : ℚ) < mkRat 2 10) :=
  ⟨thickness_positive_when_stored.1 "0.1mm" (mkRat 1 10) (by decide),
   thickness_positive_when_stored.2 "Gold Target (Ø57mm x 0.2mm)" (mkRat 2 10) (by decide)⟩

/-- Claim C10: `parsePrice` behaves exactly as described — `null` for a
null argument or a `P.O.R.` string, otherwise the first decimal numeral of
the input stripped of `$` and `,`, or `null` when there is none (the
code's extra falsy check for the empty string coincides with the
no-numeral case). -/
theorem parsePrice_matches_spec (p : Option String) : parsePrice p = parsePriceSpec p := by
  cases p with
  | none => rfl
  | some s =>
    by_cases he : s = ""
    · subst he; decide
    · unfold parsePrice parsePriceSpec
      simp only [he, if_false]
      by_cases hp : containsSub s "P.O.R." = true
      · simp [hp]
      · simp only [Bool.not_eq_true] at hp
        simp only [hp, Bool.false_eq_true, if_false]
        cases h : findNumB (stripDollarComma s).toList <;> simp [h]


/-- Claim C1 counterexample: the structured annular-table strategy
produces a record with shape annular whose outer and inner diameters are
both absent (empty OD/ID cells parse to `null`), refuting the pipeline-wide
"Annular iff both diameters present" invariant. -/
theorem annular_row_shape_counterexample :
    (parseAnnularRow false ["90001", "Gold", "", ""]).map
      (fun t => (t.target_type, t.outer_diameter_mm, t.inner_diameter_mm, t.diameter_mm)) =
    some ("annular", none, none, none) := by decide

/-- Claim C1 (amended): for every record produced by `parseDescription`
(the free-text normalizer), shape = annular iff both the outer and the
inner diameter are present and the single diameter is absent; disc implies
the pair is absent; and the presence of both an OD and an ID marker forces
annular, stores the pair and clears the single diameter. -/
theorem parseDescription_shape_invariant (desc : String) :
    ((parseDescription desc).target_type = "annular" ↔
      ((parseDescription desc).outer_diameter_mm.isSome ∧
       (parseDescription desc).inner_diameter_mm.isSome ∧
       (parseDescription desc).diameter_mm = none)) ∧
    ((parseDescription desc).target_type = "disc" →
      (parseDescription desc).outer_diameter_mm = none ∧
      (parseDescription desc).inner_diameter_mm = none) ∧
    (∀ o i, firstMatch (odidHere 'o') desc.toList = some o →
      firstMatch (odidHere 'i') desc.toList = some i →
      (parseDescription desc).target_type = "annular" ∧
      (parseDescription desc).diameter_mm = none ∧
      (parseDescription desc).outer_diameter_mm = some o ∧
      (parseDescription desc).inner_diameter_mm = some i) := by
  by_cases he : desc = ""
  · subst he
    refine ⟨by decide, by decide, ?_⟩
    intro o i ho hi
    have hnone : firstMatch (odidHere 'o') "".toList = none := by decide
    rw [hnone] at ho
    exact Option.noConfusion ho
  · unfold parseDescription
    simp only [he, if_false]
    cases hod : firstMatch (odidHere 'o') desc.toList with
    | some o' =>
      cases hid : firstMatch (odidHere 'i') desc.toList with
      | some i' =>
        refine ⟨by simp, by simp, ?_⟩
        intro o i ho hi
        cases ho
        cases hi
        simp
      | none =>
        refine ⟨by simp, by simp, ?_⟩
        intro o i ho hi
        exact Option.noConfusion hi
    | none =>
      cases hid : firstMatch (odidHere 'i') desc.toList with
      | some i' =>
        refine ⟨by simp, by simp, ?_⟩
        intro o i ho hi
        exact Option.noConfusion ho
      | none =>
        refine ⟨by simp, by simp, ?_⟩
        intro o i ho hi
        exact Option.noConfusion ho

/-- Claim C1 witness: the amended theorem applied to the concrete
description with both markers. -/
theorem parseDescription_shape_invariant_witness :
    (parseDescription "Gold Target, 99.99% Au (60mm O.D. / 20mm I.D.)").target_type = "annular" ∧
    (parseDescription "Gold Target, 99.99% Au (60mm O.D. / 20mm I.D.)").diameter_mm = none ∧
    (parseDescription "Gold Target, 99.99% Au (60mm O.D. / 20mm I.D.)").outer_diameter_mm = some 60 ∧
    (parseDescription "Gold Target, 99.99% Au (60mm O.D. / 20mm I.D.)").inner_diameter_mm = some 20 :=
  (parseDescription_shape_invariant _).2.2 60 20 (by decide) (by decide)


/-- The dedup filter keeps, for every key, exactly the first candidate
carrying it: `find?` on the deduplicated list agrees with `find?` on the
input (generalized over the `seen` accumulator). -/
theorem dedupAux_find? (k : String) :
    ∀ (seen : List String) (ts : List Target), seen.contains k = false →
      (dedupAux seen ts).find? (fun t => t.part_number == k) =
        ts.find? (fun t => t.part_number == k) := by
  intro seen ts
  induction ts generalizing seen with
  | nil => intro _; rfl
  | cons t ts ih =>
    intro hk
    rw [dedupAux]
    by_cases hc : seen.contains t.part_number = true
    · have hne : (t.part_number == k) = false := by
        rw [beq_eq_false_iff_ne]
        intro hbe
        rw [hbe] at hc
        rw [hc] at hk
        cases hk
      simp only [hc, if_true, List.find?_cons, hne, Bool.false_eq_true, if_false]
      exact ih seen hk
    · simp only [Bool.not_eq_true] at hc
      simp only [hc, Bool.false_eq_true, if_false]
      by_cases hbe : (t.part_number == k) = true
      · simp only [List.find?_cons, hbe, if_true]
      · simp only [Bool.not_eq_true] at hbe
        simp only [List.find?_cons, hbe, Bool.false_eq_true, if_false]
        refine ih (t.part_number :: seen) ?_
        simp only [List.contains_cons, Bool.or_eq_false_iff]
        refine ⟨?_, hk⟩
        rw [beq_eq_false_iff_ne] at hbe ⊢
        intro hkk
        exact hbe (by rw [hkk])

/-- A key occurs among the deduplicated candidates iff it is not in the
`seen` accumulator and occurs among the input candidates. -/
theorem mem_map_dedupAux (k : String) :
    ∀ (seen : List String) (ts : List Target),
      (k ∈ (dedupAux seen ts).map (fun t => t.part_number)) ↔
        (seen.contains k = false ∧ k ∈ ts.map (fun t => t.part_number)) := by
  intro seen ts
  induction ts generalizing seen with
  | nil => simp [dedupAux]
  | cons t ts ih =>
    rw [dedupAux]
    by_cases hc : seen.contains t.part_number = true
    · simp only [hc, if_true]
      rw [ih seen]
      simp only [List.map_cons, List.mem_cons]
      constructor
      · rintro ⟨h1, h2⟩
        exact ⟨h1, Or.inr h2⟩
      · rintro ⟨h1, h2⟩
        refine ⟨h1, ?_⟩
        cases h2 with
        | inl he =>
          exfalso
          rw [he] at h1
          rw [hc] at h1
          cases h1
        | inr hm => exact hm
    · simp only [Bool.not_eq_true] at hc
      simp only [hc, Bool.false_eq_true, if_false]
      simp only [List.map_cons, List.mem_cons]
      rw [ih (t.part_number :: seen)]
      simp only [List.contains_cons, Bool.or_eq_false_iff, beq_eq_false_iff_ne]
      constructor
      · rintro (he | ⟨⟨hne, hcf⟩, hm⟩)
        · subst he
          exact ⟨hc, Or.inl rfl⟩
        · exact ⟨hcf, Or.inr hm⟩
      · rintro ⟨hcf, he | hm⟩
        · exact Or.inl he
        · by_cases hkt : k = t.part_number
          · exact Or.inl hkt
          · exact Or.inr ⟨⟨hkt, hcf⟩, hm⟩

/-- The part numbers of the deduplicated candidate list are pairwise
distinct. -/
theorem nodup_map_dedupAux :
    ∀ (seen : List String) (ts : List Target),
      ((dedupAux seen ts).map (fun t => t.part_number)).Nodup := by
  intro seen ts
  induction ts generalizing seen with
  | nil => simp [dedupAux]
  | cons t ts ih =>
    rw [dedupAux]
    by_cases hc : seen.contains t.part_number = true
    · simp only [hc, if_true]
      exact ih seen
    · simp only [Bool.not_eq_true] at hc
      simp only [hc, Bool.false_eq_true, if_false]
      simp only [List.map_cons, List.nodup_cons]
      refine ⟨?_, ih (t.part_number :: seen)⟩
      intro hmem
      rw [mem_map_dedupAux] at hmem
      obtain ⟨h1, _⟩ := hmem
      simp [List.contains_cons] at h1





set_option maxRecDepth 80000 in
/-- Claim C4 counterexample: two same-precedence free-text candidates with
the same part number (`Gold` produced first, `Silver` last); the dedup of
lines 598–604 keeps the FIRST-produced candidate, not the last-produced
one the claim announces. -/
theorem dedup_keeps_first_counterexample :
    (parseFreeTextCandidates duplicateKeyText).map (fun t => (t.part_number, t.material)) =
      [("91000", some "Gold"), ("91000", some "Silver")] ∧
    (dedupByPartNumber (parseFreeTextCandidates duplicateKeyText)).map
      (fun t => (t.part_number, t.material)) = [("91000", some "Gold")] := by
  constructor <;> decide

/-- Claim C4 (amended): for every key the reconciler keeps the
first-produced candidate (the dedup keeps the first occurrence), and the
DOM pass never emits a candidate whose part number an earlier candidate
already carries. -/
theorem reconciler_first_candidate_wins :
    (∀ (ts : List Target) (k : String),
      (dedupByPartNumber ts).find? (fun t => t.part_number == k) =
        ts.find? (fun t => t.part_number == k)) ∧
    (∀ acc text t, domRowCandidate acc text = some t →
      ∀ t' ∈ acc, t'.part_number ≠ t.part_number) := by
  constructor
  · intro ts k
    exact dedupAux_find? k [] ts rfl
  · intro acc text t h t' ht'
    unfold domRowCandidate at h
    split at h
    · cases h
    · rename_i pn hpn
      by_cases hany : (acc.any fun x => decide (x.part_number = pn)) = true
      · rw [if_pos hany] at h
        cases h
      · rw [if_neg hany] at h
        split at h
        · cases h
        · dsimp only at h
          split at h
          · split at h
            · cases h
              simp only [List.any_eq_true, not_exists, not_and, decide_eq_true_eq] at hany
              intro heq
              exact hany t' ht' heq
            · cases h
          · cases h

/-- Claim C4 witness: the amended theorem applied to concrete candidate
lists and to the concrete DOM row `platRowText`. -/
theorem reconciler_first_candidate_wins_witness :
    ((dedupByPartNumber [sampleGold, sampleSilver]).find? (fun t => t.part_number == "91000") =
      [sampleGold, sampleSilver].find? (fun t => t.part_number == "91000")) ∧
    sampleGold.part_number ≠ platTarget.part_number :=
  ⟨reconciler_first_candidate_wins.1 [sampleGold, sampleSilver] "91000",
   reconciler_first_candidate_wins.2 [sampleGold] platRowText platTarget (by decide)
     sampleGold (by decide)⟩

/-- Claim C5: every part number occurring among the candidates occurs
exactly once in the deduplicated output (and output part numbers are
pairwise distinct). -/
theorem dedup_exactly_one_per_key :
    (∀ ts : List Target, ((dedupByPartNumber ts).map (fun t => t.part_number)).Nodup) ∧
    (∀ (ts : List Target) (k : String), k ∈ ts.map (fun t => t.part_number) →
      ((dedupByPartNumber ts).map (fun t => t.part_number)).count k = 1) := by
  constructor
  · intro ts
    exact nodup_map_dedupAux [] ts
  · intro ts k hk
    have hmem : k ∈ (dedupByPartNumber ts).map (fun t => t.part_number) := by
      unfold dedupByPartNumber
      rw [mem_map_dedupAux]
      exact ⟨rfl, hk⟩
    exact List.count_eq_one_of_mem (nodup_map_dedupAux [] ts) hmem

/-- Claim C5 witness: the key `"91000"`, carried by two candidates,
appears exactly once after dedup. -/
theorem dedup_exactly_one_per_key_witness :
    ((dedupByPartNumber [sampleGold, sampleSilver]).map (fun t => t.part_number)).count "91000" = 1 :=
  dedup_exactly_one_per_key.2 [sampleGold, sampleSilver] "91000" (by decide)

/-- Claim C8 counterexample: the fallback pattern is `/\b(\d{5})\b/` —
five digits exactly, not the claimed 4–5: a page with no table candidates
and one row containing the bare 4-digit numeral `"9123"` produces no
candidate at all. -/
theorem dom_fallback_four_digit_counterexample :
    parseTargetsFromHTMLv1 [] ["9123"] = .ok [] ∧ fallbackRow "9123" = none := by
  constructor <;> decide

/-- Claim C8 (amended): the DOM fallback runs only when the table
strategies produced zero candidates (any nonempty table result is returned
unchanged, the row texts never consulted); every fallback candidate has
material `"Unknown"` and all measurement fields null; and the numeral it
scans for is a bare FIVE-digit numeral (`"row 91234"` produces the
candidate, a 4-digit numeral does not — see the counterexample). -/
theorem dom_fallback_behavior :
    (∀ tables rowTexts ts, tableCandidates tables = .ok ts → ts ≠ [] →
      parseTargetsFromHTMLv1 tables rowTexts = .ok ts) ∧
    (∀ text t, fallbackRow text = some t →
      t.material = some "Unknown" ∧ t.purity = none ∧ t.diameter_mm = none ∧
      t.outer_diameter_mm = none ∧ t.inner_diameter_mm = none ∧
      t.thickness_mm = none ∧ t.target_type = "disc") ∧
    parseTargetsFromHTMLv1 [] ["row 91234"] = .ok [fallbackTestTarget] := by
  refine ⟨?_, ?_, by decide⟩
  · intro tables rowTexts ts h hne
    unfold parseTargetsFromHTMLv1
    rw [h]
    have hl : ¬ ts.length = 0 := fun hl => hne (List.length_eq_zero.mp hl)
    show (if ts.length = 0 then _ else pure ts : Except Unit (List Target)) = _
    rw [if_neg hl]
    rfl
  · intro text t h
    unfold fallbackRow at h
    split at h
    · cases h
      exact ⟨rfl, rfl, rfl, rfl, rfl, rfl, rfl⟩
    · cases h

/-- Claim C8 witness: the nonempty-table part applied to the concrete
`discTable`, and the null-fields part applied to the row `"row 91234"`. -/
theorem dom_fallback_behavior_witness :
    (parseTargetsFromHTMLv1 [discTable] ["11111"] = .ok [discTableTarget]) ∧
    (fallbackTestTarget.material = some "Unknown" ∧ fallbackTestTarget.purity = none ∧
     fallbackTestTarget.diameter_mm = none ∧ fallbackTestTarget.outer_diameter_mm = none ∧
     fallbackTestTarget.inner_diameter_mm = none ∧ fallbackTestTarget.thickness_mm = none ∧
     fallbackTestTarget.target_type = "disc") :=
  ⟨dom_fallback_behavior.1 [discTable] ["11111"] [discTableTarget] (by decide) (by decide),
   dom_fallback_behavior.2.1 "row 91234" fallbackTestTarget (by decide)⟩
